import Mathlib

/-!
Verification of the edit-reconciliation and persistence engine of
`src/procurement_app.py` (procurement quote tracker).

The Python source is shallowly embedded: pandas DataFrames of quote rows
become `List Quote`; the project-metadata dict becomes an association list;
Streamlit session state becomes an explicit `AppState` record threaded
through the handlers.  Dates are modelled as integer day counts, money
amounts as integers (the UI's unit-price widget is integer-valued).
External collaborators (Google Sheets, GCS) are modelled by boolean
outcome parameters / oracles.
-/

namespace Procurement

/-- One quote row, fields following the sheet columns
`ID, 選取, 專案名稱, 專案項目, 供應商, 單價, 數量, 總價, 預計交貨日, 狀態,
採購最慢到貨日, 最後修改時間, 附件, 標記刪除` of `load_data_from_sheets`.
Dates are day counts; a missing date (pandas `NaT`) is `none`. -/
structure Quote where
  id : Int
  selected : Bool
  projectName : String
  itemName : String
  supplier : String
  unitPrice : Int
  quantity : Int
  total : Int
  expectedDelivery : Option Int
  status : String
  latestArrival : Option Int
  lastModified : String
  attachment : String
  markedDelete : Bool
deriving DecidableEq, Repr

/-- Per-project metadata, as built by `load_data_from_sheets` from the
`專案設定` worksheet: `due_date`, `buffer_days`, `last_modified`. -/
structure ProjectMeta where
  due_date : Int
  buffer_days : Int
  last_modified : String
deriving DecidableEq, Repr

/-- The Streamlit session state that the handlers read and mutate
(`st.session_state.data`, `.project_metadata`, `.edited_dataframes`,
`.show_delete_confirm`, `.pending_delete_ids`, `.delete_count`,
`.next_id`, `.data_load_failed`). -/
structure AppState where
  data : List Quote
  projectMetadata : List (String × ProjectMeta)
  editedDataframes : List (String × List Quote)
  showDeleteConfirm : Bool
  pendingDeleteIds : Option (List Int)
  deleteCount : Nat
  nextId : Int
  dataLoadFailed : Bool
deriving DecidableEq, Repr

/-- Dictionary lookup `metadata.get(key)` over the association list. -/
def lookupMeta (m : List (String × ProjectMeta)) (k : String) : Option ProjectMeta :=
  (m.find? (fun p => p.1 == k)).map (fun p => p.2)

/-! ## Record Store client (`write_data_to_sheets` gate)

`write_data_to_sheets` first checks the `data_load_failed` latch (and the
sheet URL, which is always configured via a hard-coded default) and refuses
to touch the store when the latch is set; otherwise the outcome depends on
the external store, modelled by `backendOk`. -/

/-- Outcome of a call to `write_data_to_sheets`: either refused up front by
the `data_load_failed` latch (no store interaction at all), or performed
against the store with result `ok`. -/
inductive WriteOutcome where
  | refused
  | performed (ok : Bool)
deriving DecidableEq, Repr

/-- The guard at the top of `write_data_to_sheets` (src lines 306-310). -/
def write_attempt (dataLoadFailed : Bool) (backendOk : Bool) : WriteOutcome :=
  if dataLoadFailed then .refused else .performed backendOk

/-- Boolean result of `write_data_to_sheets` as seen by its callers. -/
def write_data_to_sheets (dataLoadFailed : Bool) (backendOk : Bool) : Bool :=
  match write_attempt dataLoadFailed backendOk with
  | .refused => false
  | .performed ok => ok

/-! ## Reconciliation engine (`handle_master_save`, src lines 597-670)

Each edited-grid row is compared field by field against the canonical row
with the same ID; a differing value is written into canonical state and
marks the row dirty.  The comparison in the source is `str(old) != str(new)`
over uniformly-typed columns, embedded here as value inequality. -/

/-- One `if str(old) != str(new): set` update of an editable column:
the resulting value, and whether the row was marked changed. -/
def updateField {α : Type} [DecidableEq α] (old new : α) : α × Bool :=
  if old ≠ new then (new, true) else (old, false)

/-- The field-level change detection of `handle_master_save` for one edited
row: the `預計交貨日` update (skipped when the edited value is missing,
`pd.notna` false), then the `updatable_cols`
`['選取', '供應商', '單價', '數量', '狀態', '標記刪除']`. -/
def applyFieldEdits (q r : Quote) : Quote × Bool :=
  let ed := match r.expectedDelivery with
    | some d => updateField q.expectedDelivery (some d)
    | none => (q.expectedDelivery, false)
  let sel := updateField q.selected r.selected
  let sup := updateField q.supplier r.supplier
  let pr := updateField q.unitPrice r.unitPrice
  let qty := updateField q.quantity r.quantity
  let stt := updateField q.status r.status
  let md := updateField q.markedDelete r.markedDelete
  ({ q with expectedDelivery := ed.1, selected := sel.1, supplier := sup.1,
            unitPrice := pr.1, quantity := qty.1, status := stt.1,
            markedDelete := md.1 },
   ed.2 || sel.2 || sup.2 || pr.2 || qty.2 || stt.2 || md.2)

/-- The unconditional `總價 = 單價 * 數量` recomputation of
`handle_master_save` (src lines 644-651): the total is recomputed from the
current price and quantity and written back when it differs. -/
def recomputeTotal (q : Quote) : Quote × Bool :=
  if q.total ≠ q.unitPrice * q.quantity then
    ({ q with total := q.unitPrice * q.quantity }, true)
  else (q, false)

/-- Full processing of one edited row against one canonical row:
field edits, then total recomputation; the flag is `row_changed`. -/
def updateQuote (q r : Quote) : Quote × Bool :=
  let a := applyFieldEdits q r
  let b := recomputeTotal a.1
  (b.1, a.2 || b.2)

/-- `main_df[main_df['ID'] == original_id].index` followed by in-place
update of the first matching row; a dirty row gets its `最後修改時間`
stamped with `now`.  A row whose ID is not found is skipped. -/
def updateFirst (now : String) (r : Quote) : List Quote → List Quote × Bool
  | [] => ([], false)
  | q :: rest =>
    if q.id = r.id then
      let u := updateQuote q r
      ((if u.2 then { u.1 with lastModified := now } else u.1) :: rest, u.2)
    else
      let v := updateFirst now r rest
      (q :: v.1, v.2)

/-- The inner `for index, new_row in edited_df.iterrows()` loop:
process each snapshot row in order, accumulating `changes_detected`. -/
def applySnapshot (now : String) : List Quote → List Quote → List Quote × Bool
  | main, [] => (main, false)
  | main, r :: rs =>
    let u := updateFirst now r main
    let v := applySnapshot now u.1 rs
    (v.1, u.2 || v.2)

/-- The outer `for _, edited_df in st.session_state.edited_dataframes.items()`
loop: merge every Edit Buffer snapshot in insertion order. -/
def mergeBuffer (now : String) : List Quote → List (String × List Quote) → List Quote × Bool
  | main, [] => (main, false)
  | main, (_, snap) :: rest =>
    let u := applySnapshot now main snap
    let v := mergeBuffer now u.1 rest
    (v.1, u.2 || v.2)

/-- User-visible outcome of `handle_master_save`: the "沒有偵測到表格修改"
info message (shown both for an empty Edit Buffer and for a no-op merge),
the success path, or a write failure (error shown by
`write_data_to_sheets`). -/
inductive SaveReport where
  | nothingToSave
  | saved
  | writeFailed
deriving DecidableEq, Repr

/-- Result of a `handle_master_save` invocation: the new session state,
the row set passed to `write_data_to_sheets` (if the call was made at
all), and the report. -/
structure MasterSaveResult where
  state : AppState
  wrote : Option (List Quote)
  report : SaveReport
deriving DecidableEq, Repr

/-- `handle_master_save` (src lines 597-670).  With an empty Edit Buffer
or with no detected change the session state is left untouched and no
write is issued.  Otherwise `st.session_state.data` is replaced by the
merged rows, `write_data_to_sheets` is called, and only on a successful
write is the Edit Buffer cleared. -/
def handle_master_save (s : AppState) (now : String) (backendOk : Bool) : MasterSaveResult :=
  if s.editedDataframes = [] then ⟨s, none, .nothingToSave⟩
  else
    let m := mergeBuffer now s.data s.editedDataframes
    if m.2 then
      let s1 := { s with data := m.1 }
      if write_data_to_sheets s1.dataLoadFailed backendOk then
        ⟨{ s1 with editedDataframes := [] }, some m.1, .saved⟩
      else
        ⟨s1, some m.1, .writeFailed⟩
    else
      ⟨s, none, .nothingToSave⟩

/-! ## Deletion coordinator
(`get_current_delete_ids`, `trigger_delete_confirmation`,
`handle_batch_delete_quotes`, src lines 673-768) -/

/-- The `delete_map` built by `get_current_delete_ids`: iterate all Edit
Buffer snapshots in order, `delete_map[row['ID']] = row['標記刪除']`.
Later assignments overwrite earlier ones, modelled by prepending and
looking up the first hit. -/
def deleteMap : List (String × List Quote) → List (Int × Bool)
  | [] => []
  | (_, snap) :: rest =>
    snap.foldl (fun m row => (row.id, row.markedDelete) :: m) (deleteMap rest)

/-- `delete_map.get(item_id, row['標記刪除'])`. -/
def markedFor (m : List (Int × Bool)) (row : Quote) : Bool :=
  match m.find? (fun p => p.1 == row.id) with
  | some p => p.2
  | none => row.markedDelete

/-- `get_current_delete_ids` (src lines 673-693): for each canonical row,
the Edit Buffer value of `標記刪除` takes precedence over the canonical
one; collect the IDs marked for deletion. -/
def get_current_delete_ids (s : AppState) : List Int :=
  let m := deleteMap s.editedDataframes
  (s.data.filter (fun row => markedFor m row)).map (fun row => row.id)

/-- `trigger_delete_confirmation` (src lines 696-716): with nothing marked,
stay idle (warning, confirmation flag cleared, pending IDs dropped);
otherwise lock the ID list into `pending_delete_ids`, record the count and
enter the Confirming state. -/
def trigger_delete_confirmation (s : AppState) : AppState :=
  let ids := get_current_delete_ids s
  if ids = [] then
    { s with showDeleteConfirm := false, pendingDeleteIds := none }
  else
    { s with pendingDeleteIds := some ids, deleteCount := ids.length,
             showDeleteConfirm := true }

/-- User-visible outcome of `handle_batch_delete_quotes`: the stale-state
warning, full success with record and attachment counts, the
partial-failure warning (records deleted, some GCS deletions failed), or
a Sheets write failure (nothing reported, nothing cleared). -/
inductive DeleteReport where
  | expired
  | success (records : Nat) (files : Nat)
  | someFilesFailed (records : Nat)
  | writeFailed
deriving DecidableEq, Repr

/-- Result of `handle_batch_delete_quotes`: new session state, the row set
passed to `write_data_to_sheets` (if called), the GCS object names whose
deletion was requested, the count of successful GCS deletions and the
overall GCS success flag, and the report. -/
structure DeleteResult where
  state : AppState
  wrote : Option (List Quote)
  gcsRequests : List String
  filesDeleted : Nat
  gcsAllOk : Bool
  report : DeleteReport
deriving Repr

/-- `handle_batch_delete_quotes` (src lines 719-768).  `gcsDelete` is the
Attachment Store oracle (`delete_file_from_gcs`): for each pending row
whose stripped `附件` reference is non-empty a deletion is requested; a
failure only clears the `success` flag and is logged, the record deletion
proceeds.  The reduced canonical state is installed and written; only if
the write succeeds are the confirmation flag, the Edit Buffer and the
pending ID list cleared. -/
def handle_batch_delete_quotes (s : AppState) (gcsDelete : String → Bool)
    (backendOk : Bool) : DeleteResult :=
  let ids := s.pendingDeleteIds.getD []
  if ids = [] then
    ⟨{ s with showDeleteConfirm := false }, none, [], 0, true, .expired⟩
  else
    let deletedQuotes := s.data.filter (fun q => ids.contains q.id)
    let names := (deletedQuotes.map (fun q => q.attachment.trim)).filter (fun n => n ≠ "")
    let filesDeleted := (names.filter (fun n => gcsDelete n)).length
    let ok := names.all (fun n => gcsDelete n)
    let remaining := s.data.filter (fun q => !(ids.contains q.id))
    let s1 := { s with data := remaining }
    if write_data_to_sheets s1.dataLoadFailed backendOk then
      ⟨{ s1 with showDeleteConfirm := false, editedDataframes := [],
                 pendingDeleteIds := none },
        some remaining, names, filesDeleted, ok,
        if ok then .success ids.length filesDeleted else .someFilesFailed ids.length⟩
    else
      ⟨s1, some remaining, names, filesDeleted, ok, .writeFailed⟩

/-! ## Project modification (`handle_project_modification`, src lines 771-793) -/

/-- Outcome of `handle_project_modification`: empty-name error,
duplicate-name error (both before any mutation), or applied with the
result of the Sheets write. -/
inductive RenameOutcome where
  | emptyName
  | duplicateName
  | applied (writeOk : Bool)
deriving DecidableEq, Repr

/-- Result of `handle_project_modification`. -/
structure RenameResult where
  state : AppState
  outcome : RenameOutcome
deriving DecidableEq, Repr

/-- `metadata.pop(target)` removes the key from the dict. -/
def removeMeta (m : List (String × ProjectMeta)) (k : String) : List (String × ProjectMeta) :=
  m.filter (fun p => p.1 ≠ k)

/-- `handle_project_modification` (src lines 771-793).  An empty new name
or a clash with a different existing project is rejected before any
mutation.  Otherwise the metadata entry is popped and re-inserted under
the new name and every owned quote's `專案名稱` is rewritten
(`data.loc[data['專案名稱'] == target, '專案名稱'] = new`), then the full
state is written to Sheets.  `none` models the uncaught `KeyError` when
the target project is not in the metadata dict (the UI only offers
existing projects). -/
def handle_project_modification (s : AppState) (target newName : String)
    (backendOk : Bool) : Option RenameResult :=
  if newName = "" then some ⟨s, .emptyName⟩
  else if target ≠ newName ∧ (lookupMeta s.projectMetadata newName).isSome then
    some ⟨s, .duplicateName⟩
  else
    match lookupMeta s.projectMetadata target with
    | none => none
    | some meta =>
      let md := removeMeta s.projectMetadata target ++ [(newName, meta)]
      let d := s.data.map (fun q =>
        if q.projectName = target then { q with projectName := newName } else q)
      let s1 := { s with projectMetadata := md, data := d }
      some ⟨s1, .applied (write_data_to_sheets s1.dataLoadFailed backendOk)⟩

/-! ## Quote creation (`initialize_session_state`, `handle_add_new_quote`,
src lines 887-938) -/

/-- `st.session_state.data['ID'].max()` over a non-null integer ID column
(pandas maximum of the series). -/
def maxQuoteId : List Quote → Int
  | [] => 0
  | q :: rest => rest.foldl (fun m r => max m r.id) q.id

/-- The `next_id` initialisation of `initialize_session_state`
(src lines 929-930): `data['ID'].max() + 1` when the table is non-empty,
else `1`. -/
def initialize_next_id (data : List Quote) : Int :=
  if data = [] then 1 else maxQuoteId data + 1

/-- The `new_row` dict built by `handle_add_new_quote` (src lines
887-900): `ID = next_id`, `總價 = 單價 * 數量`, fresh timestamps and an
empty attachment. -/
def newQuoteRow (nid : Int) (projectName itemName supplier : String)
    (price qty : Int) (status : String) (delivery latestArrival : Int)
    (now : String) : Quote :=
  { id := nid, selected := false, projectName := projectName,
    itemName := itemName, supplier := supplier, unitPrice := price,
    quantity := qty, total := price * qty,
    expectedDelivery := some delivery, status := status,
    latestArrival := some latestArrival, lastModified := now,
    attachment := "", markedDelete := false }

/-- `handle_add_new_quote` (src lines 862-907): validation (non-empty
project and item names, project present in the metadata dict), then a new
row is appended and the session counter `next_id` is incremented.
Returns the new state and the appended row (or `none` if validation
failed and the state is untouched). -/
def handle_add_new_quote (s : AppState) (projectName itemName supplier : String)
    (price qty : Int) (status : String) (delivery : Int) (latestArrival : Int)
    (now : String) : AppState × Option Quote :=
  if projectName = "" ∨ itemName = "" then (s, none)
  else if (lookupMeta s.projectMetadata projectName).isSome = false then (s, none)
  else
    ({ s with nextId := s.nextId + 1,
              data := s.data ++ [newQuoteRow s.nextId projectName itemName supplier
                price qty status delivery latestArrival now] },
     some (newQuoteRow s.nextId projectName itemName supplier
       price qty status delivery latestArrival now))

/-! ## Record Store load (`load_data_from_sheets`, src lines 192-303)

On the fatal-exception path the function returns an empty DataFrame and an
empty metadata dict and sets `st.session_state.data_load_failed = True`.
No code path anywhere in the source ever resets that flag. -/

/-- Outcome of one `load_data_from_sheets` call. -/
inductive LoadEvent where
  | ok (quotes : List Quote) (meta : List (String × ProjectMeta))
  | failure

/-- Effect of a `load_data_from_sheets` call on the session state:
a successful load installs the loaded rows and metadata (and does not
touch `data_load_failed`); the exception path installs the empty state
and sets the latch. -/
def applyLoad (s : AppState) : LoadEvent → AppState
  | .ok qs meta => { s with data := qs, projectMetadata := meta }
  | .failure => { s with data := [], projectMetadata := [], dataLoadFailed := true }

/-- A sequence of load events applied in order. -/
def applyLoads (s : AppState) : List LoadEvent → AppState
  | [] => s
  | e :: es => applyLoads (applyLoad s e) es

/-! ## Batch-operation UI guard (`render_batch_operations`, src lines
1115-1143; `render_project_tables`, src line 1286)

Both the master-save button and the delete-trigger button carry
`disabled=is_locked` with `is_locked = st.session_state.show_delete_confirm`;
the confirm/cancel buttons are only rendered while
`show_delete_confirm` is set. -/

/-- The batch-operation actions a user can invoke from
`render_batch_operations`. -/
inductive UiAction where
  | save (now : String) (backendOk : Bool)
  | triggerDelete
  | confirmDelete (gcsDelete : String → Bool) (backendOk : Bool)
  | cancelDelete

/-- Whether an action is the deletion-confirm transition. -/
def UiAction.isConfirm : UiAction → Bool
  | .confirmDelete _ _ => true
  | _ => false

/-- Whether an action is the deletion-cancel transition. -/
def UiAction.isCancel : UiAction → Bool
  | .cancelDelete => true
  | _ => false

/-- The `disabled=is_locked` guards of `render_batch_operations`: while
`show_delete_confirm` is set, only the confirm and cancel buttons exist;
otherwise only save and trigger. -/
def enabled (s : AppState) : UiAction → Bool
  | .save _ _ => !s.showDeleteConfirm
  | .triggerDelete => !s.showDeleteConfirm
  | .confirmDelete _ _ => s.showDeleteConfirm
  | .cancelDelete => s.showDeleteConfirm

/-- The handler behind each batch-operation button. -/
def applyAction (s : AppState) : UiAction → AppState
  | .save now b => (handle_master_save s now b).state
  | .triggerDelete => trigger_delete_confirmation s
  | .confirmDelete gcs b => (handle_batch_delete_quotes s gcs b).state
  | .cancelDelete => { s with showDeleteConfirm := false }

/-- One user interaction: a disabled button cannot be clicked, so a
disabled action leaves the state unchanged. -/
def step (s : AppState) (a : UiAction) : AppState :=
  if enabled s a then applyAction s a else s

/-- A sequence of user interactions. -/
def run (s : AppState) : List UiAction → AppState
  | [] => s
  | a :: as => run (step s a) as

/-! ## Derivation engine

The body of `calculate_latest_arrival_dates` is not under `src/`:
line 390 of `src/procurement_app.py` notes it is kept unchanged from a
prior iteration of the file.  It is modelled from the spec below.  The
per-project formula `latest arrival = due date - buffer days` does appear
in the source (`render_sidebar_ui`, src lines 1009-1015, and
`render_project_tables`, src lines 1178-1188). -/

/-- Modelled from the spec: the body of `calculate_latest_arrival_dates`
is missing from `src/procurement_app.py` (kept-unchanged note at line
390).  Spec section 4.1: for every quote, look up its project by name; if
found, latest-allowable-arrival = due date - buffer days; if the project
is missing, the field is left unset (the quote is returned unchanged, no
guessed value). -/
def deriveOne (meta : List (String × ProjectMeta)) (q : Quote) : Quote :=
  match lookupMeta meta q.projectName with
  | some m => { q with latestArrival := some (m.due_date - m.buffer_days) }
  | none => q

/-- Modelled from the spec: `calculate_latest_arrival_dates(quotes,
projects)` applies the per-quote derivation to every row. -/
def calculate_latest_arrival_dates (quotes : List Quote)
    (meta : List (String × ProjectMeta)) : List Quote :=
  quotes.map (deriveOne meta)

/-! ## Budget rollup (`render_project_tables`, src lines 1205-1214)

`has_selection = item_data['選取'].any()`;
`sub_total = item_data[item_data['選取']]['總價'].sum() if has_selection
else item_data['總價'].min()`. -/

/-- pandas `.min()` over the `總價` column: `NaN` (here `none`) on an
empty series, otherwise the minimum. -/
def listMin : List Int → Option Int
  | [] => none
  | x :: xs => some (xs.foldl min x)

/-- The per-(project, item) group contribution computed by
`render_project_tables` (src lines 1207-1208): sum of the selected rows'
totals when any row is selected, otherwise the minimum total. -/
def sub_total (g : List Quote) : Option Int :=
  if g.any (fun q => q.selected) then
    some (((g.filter (fun q => q.selected)).map (fun q => q.total)).sum)
  else
    listMin (g.map (fun q => q.total))

/-- `df.groupby('專案項目')` restricted to what the claims need: the
distinct item keys, each with the rows carrying that key.  pandas sorts
the group keys; the key order is irrelevant to every property proved
here. -/
def groupByItem (rows : List Quote) : List (String × List Quote) :=
  ((rows.map (fun q => q.itemName)).dedup).map
    (fun k => (k, rows.filter (fun q => q.itemName == k)))

/-- Modelled from the spec: `calculate_project_budget` is also missing
from `src/` (kept-unchanged note at line 390).  Spec section 4.1
`budget_for_group`: sum of selected totals if any selection, otherwise
the group minimum; an empty group contributes 0. -/
def budget_for_group (g : List Quote) : Int :=
  if g.any (fun q => q.selected) then
    ((g.filter (fun q => q.selected)).map (fun q => q.total)).sum
  else
    match listMin (g.map (fun q => q.total)) with
    | some v => v
    | none => 0

/-! ## Helper lemmas about the reconciliation engine -/

/-- The line-total invariant of the spec. -/
def totalInv (q : Quote) : Prop := q.total = q.unitPrice * q.quantity

instance (q : Quote) : Decidable (totalInv q) := by
  unfold totalInv; infer_instance

/-- Lookup of the first canonical row with a given ID. -/
def findQ (l : List Quote) (x : Int) : Option Quote :=
  l.find? (fun p => p.id == x)

theorem updateField_fst {α : Type} [DecidableEq α] (a b : α) :
    (updateField a b).1 = b := by
  unfold updateField
  split
  · rfl
  · next h => exact not_ne_iff.mp h

theorem updateField_self {α : Type} [DecidableEq α] (a : α) :
    updateField a a = (a, false) := by
  simp [updateField]

theorem applyFieldEdits_unitPrice (q r : Quote) :
    (applyFieldEdits q r).1.unitPrice = r.unitPrice := by
  unfold applyFieldEdits
  simpa using updateField_fst q.unitPrice r.unitPrice

theorem applyFieldEdits_quantity (q r : Quote) :
    (applyFieldEdits q r).1.quantity = r.quantity := by
  unfold applyFieldEdits
  simpa using updateField_fst q.quantity r.quantity

theorem applyFieldEdits_id (q r : Quote) : (applyFieldEdits q r).1.id = q.id := rfl

theorem recomputeTotal_inv (q : Quote) : totalInv (recomputeTotal q).1 := by
  unfold totalInv recomputeTotal
  split
  · rfl
  · next h => exact not_ne_iff.mp h

theorem recomputeTotal_id (q : Quote) : (recomputeTotal q).1.id = q.id := by
  unfold recomputeTotal
  split <;> rfl

theorem updateQuote_inv (q r : Quote) : totalInv (updateQuote q r).1 :=
  recomputeTotal_inv _

theorem updateQuote_id (q r : Quote) : (updateQuote q r).1.id = q.id :=
  recomputeTotal_id _

/-- The modification-timestamp stamp preserves the line-total invariant. -/
theorem totalInv_stamp (q : Quote) (now : String) (h : totalInv q) :
    totalInv { q with lastModified := now } := h

theorem totalInv_stamp_id (q : Quote) (now : String) :
    ({ q with lastModified := now } : Quote).id = q.id := rfl

theorem findQ_nil (x : Int) : findQ [] x = none := rfl

theorem findQ_cons (a : Quote) (l : List Quote) (x : Int) :
    findQ (a :: l) x = if a.id = x then some a else findQ l x := by
  by_cases h : a.id = x
  · rw [if_pos h]
    exact List.find?_cons_of_pos _ (by simpa using h)
  · rw [if_neg h]
    exact List.find?_cons_of_neg _ (by simpa using h)

theorem updateFirst_cons_pos (now : String) (r a : Quote) (t : List Quote)
    (h : a.id = r.id) :
    updateFirst now r (a :: t) =
      ((if (updateQuote a r).2 then { (updateQuote a r).1 with lastModified := now }
        else (updateQuote a r).1) :: t, (updateQuote a r).2) := by
  simp [updateFirst, h]

theorem updateFirst_cons_neg (now : String) (r a : Quote) (t : List Quote)
    (h : ¬ a.id = r.id) :
    updateFirst now r (a :: t) =
      (a :: (updateFirst now r t).1, (updateFirst now r t).2) := by
  simp [updateFirst, h]

theorem applySnapshot_cons (now : String) (main : List Quote) (r : Quote)
    (rs : List Quote) :
    applySnapshot now main (r :: rs) =
      ((applySnapshot now (updateFirst now r main).1 rs).1,
       (updateFirst now r main).2 || (applySnapshot now (updateFirst now r main).1 rs).2) := by
  simp [applySnapshot]

theorem mergeBuffer_cons (now : String) (main : List Quote) (k : String)
    (snap : List Quote) (rest : List (String × List Quote)) :
    mergeBuffer now main ((k, snap) :: rest) =
      ((mergeBuffer now (applySnapshot now main snap).1 rest).1,
       (applySnapshot now main snap).2 ||
         (mergeBuffer now (applySnapshot now main snap).1 rest).2) := by
  simp [mergeBuffer]

/-- The head element written back by `updateFirst` keeps the canonical
row's ID. -/
theorem updateHead_id (a r : Quote) (now : String) :
    (if (updateQuote a r).2 then { (updateQuote a r).1 with lastModified := now }
     else (updateQuote a r).1).id = a.id := by
  split <;> exact updateQuote_id a r

/-- The head element written back by `updateFirst` satisfies the
line-total invariant. -/
theorem updateHead_inv (a r : Quote) (now : String) :
    totalInv (if (updateQuote a r).2 then { (updateQuote a r).1 with lastModified := now }
      else (updateQuote a r).1) := by
  split <;> exact updateQuote_inv a r

theorem updateFirst_idMap (now : String) (r : Quote) (l : List Quote) :
    ((updateFirst now r l).1).map (fun q => q.id) = l.map (fun q => q.id) := by
  induction l with
  | nil => rfl
  | cons a t ih =>
    by_cases h : a.id = r.id
    · rw [updateFirst_cons_pos now r a t h]
      simp only [List.map_cons]
      rw [updateHead_id]
    · rw [updateFirst_cons_neg now r a t h]
      simp only [List.map_cons]
      rw [ih]

theorem applySnapshot_idMap (now : String) (snap : List Quote) :
    ∀ main : List Quote,
      ((applySnapshot now main snap).1).map (fun q => q.id) = main.map (fun q => q.id) := by
  induction snap with
  | nil => intro main; rfl
  | cons r rs ih =>
    intro main
    rw [applySnapshot_cons]
    exact (ih _).trans (updateFirst_idMap now r main)

theorem mergeBuffer_idMap (now : String) (buf : List (String × List Quote)) :
    ∀ main : List Quote,
      ((mergeBuffer now main buf).1).map (fun q => q.id) = main.map (fun q => q.id) := by
  induction buf with
  | nil => intro main; rfl
  | cons p rest ih =>
    intro main
    obtain ⟨k, snap⟩ := p
    rw [mergeBuffer_cons]
    exact (ih _).trans (applySnapshot_idMap now snap main)

/-- With duplicate-free IDs, `findQ` at a member's ID returns exactly that
member. -/
theorem findQ_of_mem (l : List Quote) (hnd : (l.map (fun q => q.id)).Nodup)
    (q : Quote) (hq : q ∈ l) : findQ l q.id = some q := by
  induction l with
  | nil => cases hq
  | cons a t ih =>
    simp only [List.map_cons, List.nodup_cons] at hnd
    rw [findQ_cons]
    rcases List.mem_cons.mp hq with rfl | hmem
    · rw [if_pos rfl]
    · by_cases hax : a.id = q.id
      · exfalso
        have hin : q.id ∈ t.map (fun p => p.id) := List.mem_map_of_mem _ hmem
        rw [hax] at hnd
        exact hnd.1 hin
      · rw [if_neg hax]
        exact ih hnd.2 hmem

/-- The line-total invariant at a given ID is preserved by processing any
edited row. -/
theorem invAt_updateFirst (now : String) (r : Quote) (x : Int) (l : List Quote)
    (h : ∀ q, findQ l x = some q → totalInv q) :
    ∀ q, findQ (updateFirst now r l).1 x = some q → totalInv q := by
  induction l with
  | nil => intro q hq; simp [updateFirst, findQ] at hq
  | cons a t ih =>
    intro q hq
    by_cases hid : a.id = r.id
    · rw [updateFirst_cons_pos now r a t hid] at hq
      rw [findQ_cons, updateHead_id] at hq
      by_cases hx : a.id = x
      · rw [if_pos hx] at hq
        cases hq
        exact updateHead_inv a r now
      · rw [if_neg hx] at hq
        exact h q (by rw [findQ_cons, if_neg hx]; exact hq)
    · rw [updateFirst_cons_neg now r a t hid] at hq
      rw [findQ_cons] at hq
      by_cases hx : a.id = x
      · rw [if_pos hx] at hq
        cases hq
        exact h a (by rw [findQ_cons, if_pos hx])
      · rw [if_neg hx] at hq
        exact ih (fun p hp => h p (by rw [findQ_cons, if_neg hx]; exact hp)) q hq

/-- After processing an edited row, the canonical row carrying that row's
ID satisfies the line-total invariant. -/
theorem invAt_updateFirst_self (now : String) (r : Quote) (l : List Quote) :
    ∀ q, findQ (updateFirst now r l).1 r.id = some q → totalInv q := by
  induction l with
  | nil => intro q hq; simp [updateFirst, findQ] at hq
  | cons a t ih =>
    intro q hq
    by_cases hid : a.id = r.id
    · rw [updateFirst_cons_pos now r a t hid] at hq
      rw [findQ_cons, updateHead_id, if_pos hid] at hq
      cases hq
      exact updateHead_inv a r now
    · rw [updateFirst_cons_neg now r a t hid] at hq
      rw [findQ_cons, if_neg hid] at hq
      exact ih q hq

/-- The line-total invariant at a given ID is preserved by a whole
snapshot merge. -/
theorem invAt_applySnapshot (now : String) (x : Int) (snap : List Quote) :
    ∀ main : List Quote, (∀ q, findQ main x = some q → totalInv q) →
      ∀ q, findQ (applySnapshot now main snap).1 x = some q → totalInv q := by
  induction snap with
  | nil => intro main h; exact h
  | cons r rs ih =>
    intro main h
    rw [applySnapshot_cons]
    exact ih _ (invAt_updateFirst now r x main h)

/-- A snapshot containing a row with the given ID establishes the
line-total invariant at that ID. -/
theorem invAt_applySnapshot_est (now : String) (x : Int) (snap : List Quote) :
    ∀ main : List Quote, (∃ r ∈ snap, r.id = x) →
      ∀ q, findQ (applySnapshot now main snap).1 x = some q → totalInv q := by
  induction snap with
  | nil => intro main h; rcases h with ⟨r, hr, _⟩; cases hr
  | cons r rs ih =>
    intro main h
    rcases h with ⟨r', hr', hx⟩
    rcases List.mem_cons.mp hr' with rfl | hmem
    · rw [applySnapshot_cons]
      subst hx
      exact invAt_applySnapshot now r'.id rs _ (invAt_updateFirst_self now r' main)
    · rw [applySnapshot_cons]
      exact ih _ ⟨r', hmem, hx⟩

/-- The line-total invariant at a given ID is preserved by the full
Edit Buffer merge. -/
theorem invAt_mergeBuffer (now : String) (x : Int) (buf : List (String × List Quote)) :
    ∀ main : List Quote, (∀ q, findQ main x = some q → totalInv q) →
      ∀ q, findQ (mergeBuffer now main buf).1 x = some q → totalInv q := by
  induction buf with
  | nil => intro main h; exact h
  | cons p rest ih =>
    intro main h
    obtain ⟨k, snap⟩ := p
    rw [mergeBuffer_cons]
    exact ih _ (invAt_applySnapshot now x snap main h)

/-- Any Edit Buffer snapshot containing a row with the given ID
establishes the line-total invariant at that ID across the full merge. -/
theorem invAt_mergeBuffer_est (now : String) (x : Int)
    (buf : List (String × List Quote)) :
    ∀ main : List Quote, (∃ p ∈ buf, ∃ r ∈ p.2, r.id = x) →
      ∀ q, findQ (mergeBuffer now main buf).1 x = some q → totalInv q := by
  induction buf with
  | nil => intro main h; rcases h with ⟨p, hp, _⟩; cases hp
  | cons p rest ih =>
    intro main h
    obtain ⟨k, snap⟩ := p
    rcases h with ⟨p', hp', hr⟩
    rcases List.mem_cons.mp hp' with rfl | hmem
    · rw [mergeBuffer_cons]
      exact invAt_mergeBuffer now x rest _ (invAt_applySnapshot_est now x snap main hr)
    · rw [mergeBuffer_cons]
      exact ih _ ⟨p', hmem, hr⟩

/-- Comparing a row against itself produces no field change. -/
theorem applyFieldEdits_self (q : Quote) : applyFieldEdits q q = (q, false) := by
  cases q with
  | mk id sel proj item sup price qty total ed stt la lm att md =>
    cases ed <;> simp [applyFieldEdits, updateField_self]

/-- A row whose stored total is already consistent is untouched by the
total recomputation. -/
theorem recomputeTotal_self (q : Quote) (h : totalInv q) :
    recomputeTotal q = (q, false) := by
  unfold recomputeTotal
  rw [if_neg (not_ne_iff.mpr h)]

/-- Re-submitting a value-identical row with a consistent total is a
no-op. -/
theorem updateQuote_self (q : Quote) (h : totalInv q) :
    updateQuote q q = (q, false) := by
  simp [updateQuote, applyFieldEdits_self, recomputeTotal_self q h]

/-- `updateFirst` on a snapshot row that is value-identical to its
canonical row (with a consistent stored total) changes nothing and marks
nothing dirty. -/
theorem updateFirst_noop (now : String) (r : Quote) (l : List Quote)
    (hfind : findQ l r.id = some r) (hinv : totalInv r) :
    updateFirst now r l = (l, false) := by
  induction l with
  | nil => simp [findQ] at hfind
  | cons a t ih =>
    rw [findQ_cons] at hfind
    by_cases hid : a.id = r.id
    · rw [if_pos hid] at hfind
      injection hfind with ha
      subst ha
      rw [updateFirst_cons_pos now a a t rfl, updateQuote_self a hinv]
      simp
    · rw [if_neg hid] at hfind
      rw [updateFirst_cons_neg now r a t hid, ih hfind]

/-- A snapshot whose rows are all value-identical to their canonical rows
(with consistent stored totals) merges as a no-op. -/
theorem applySnapshot_noop (now : String) (snap : List Quote) (main : List Quote)
    (h : ∀ r ∈ snap, findQ main r.id = some r ∧ totalInv r) :
    applySnapshot now main snap = (main, false) := by
  induction snap with
  | nil => rfl
  | cons r rs ih =>
    have h1 := h r (List.mem_cons_self r rs)
    rw [applySnapshot_cons, updateFirst_noop now r main h1.1 h1.2]
    rw [ih (fun p hp => h p (List.mem_cons_of_mem r hp))]
    simp

/-- An Edit Buffer that is value-identical to canonical state (with
consistent stored totals) merges as a no-op: `changes_detected` stays
false and the canonical rows are unchanged. -/
theorem mergeBuffer_noop (now : String) (buf : List (String × List Quote))
    (main : List Quote)
    (h : ∀ p ∈ buf, ∀ r ∈ p.2, findQ main r.id = some r ∧ totalInv r) :
    mergeBuffer now main buf = (main, false) := by
  induction buf with
  | nil => rfl
  | cons p rest ih =>
    obtain ⟨k, snap⟩ := p
    rw [mergeBuffer_cons,
        applySnapshot_noop now snap main (h (k, snap) (List.mem_cons_self _ rest))]
    rw [ih (fun p hp => h p (List.mem_cons_of_mem _ hp))]
    simp

/-! ## Concrete sample data for counterexamples and witnesses -/

/-- A template quote used to build concrete test rows. -/
def baseQuote : Quote :=
  { id := 1, selected := false, projectName := "ProjA", itemName := "Widget",
    supplier := "S1", unitPrice := 0, quantity := 1, total := 0,
    expectedDelivery := some 20000, status := "Quoting", latestArrival := some 19990,
    lastModified := "", attachment := "", markedDelete := false }

/-- A template session state used to build concrete test states. -/
def baseState : AppState :=
  { data := [], projectMetadata := [], editedDataframes := [],
    showDeleteConfirm := false, pendingDeleteIds := none, deleteCount := 0,
    nextId := 1, dataLoadFailed := false }

/-- A canonical row with a stale stored total (999 instead of 2 * 3) that
appears in no Edit Buffer snapshot. -/
def c1Untouched : Quote := { baseQuote with id := 1, unitPrice := 2, quantity := 3, total := 999 }

/-- State for the C1 counterexample: the stale row above plus a second row
that is edited (quantity 1 to 2) through the Edit Buffer. -/
def c1State : AppState :=
  { baseState with
    data := [c1Untouched, { baseQuote with id := 2, unitPrice := 1, quantity := 1, total := 1 }],
    editedDataframes := [("Widget", [{ baseQuote with id := 2, unitPrice := 1, quantity := 2, total := 1 }])],
    nextId := 3 }

/-- Claim C1, as stated, is false: after this successful reconciliation
(report `saved`) the canonical quote with ID 1 — which appeared in no Edit
Buffer snapshot — still stores total 999 even though unit price times
quantity is 6.  `handle_master_save` only recomputes totals for rows
appearing in Edit Buffer snapshots. -/
theorem C1_counterexample :
    (handle_master_save c1State "2024-06-01 12:00:00" true).report = SaveReport.saved ∧
    c1Untouched ∈ (handle_master_save c1State "2024-06-01 12:00:00" true).state.data ∧
    ¬ (c1Untouched.total = c1Untouched.unitPrice * c1Untouched.quantity) := by
  decide

/-- Claim C1 (amended): after any successful reconciliation (report
`saved`), every quote in canonical state whose ID appeared in some Edit
Buffer snapshot row stores a line total equal to its unit price times its
quantity (assuming canonical IDs are duplicate-free, which the allocator
guarantees); quotes that appeared in no snapshot keep their previous
stored total. -/
theorem C1_total_invariant (s : AppState) (now : String) (b : Bool)
    (hnd : (s.data.map (fun q => q.id)).Nodup)
    (hrep : (handle_master_save s now b).report = SaveReport.saved)
    (q : Quote) (hq : q ∈ (handle_master_save s now b).state.data)
    (hbuf : ∃ p ∈ s.editedDataframes, ∃ r ∈ p.2, r.id = q.id) :
    q.total = q.unitPrice * q.quantity := by
  by_cases h1 : s.editedDataframes = []
  · rw [h1] at hbuf
    rcases hbuf with ⟨p, hp, _⟩
    cases hp
  · by_cases h2 : (mergeBuffer now s.data s.editedDataframes).2
    · by_cases h3 : write_data_to_sheets s.dataLoadFailed b
      · have hdata : (handle_master_save s now b).state.data =
            (mergeBuffer now s.data s.editedDataframes).1 := by
          simp [handle_master_save, h1, h2, h3]
        rw [hdata] at hq
        have hnd2 : (((mergeBuffer now s.data s.editedDataframes).1).map
            (fun q => q.id)).Nodup := by
          rw [mergeBuffer_idMap]
          exact hnd
        have hfind := findQ_of_mem _ hnd2 q hq
        exact invAt_mergeBuffer_est now q.id s.editedDataframes s.data hbuf q hfind
      · exfalso
        simp [handle_master_save, h1, h2, h3] at hrep
    · exfalso
      simp [handle_master_save, h1, h2] at hrep

/-- The canonical row behind the C1 witness. -/
def c1wQ : Quote := { baseQuote with id := 7, unitPrice := 2, quantity := 3, total := 6 }

/-- The edited snapshot row behind the C1 witness (quantity 3 to 4). -/
def c1wEdit : Quote := { baseQuote with id := 7, unitPrice := 2, quantity := 4, total := 6 }

/-- State for the C1 witness. -/
def c1wState : AppState :=
  { baseState with data := [c1wQ], editedDataframes := [("Widget", [c1wEdit])], nextId := 8 }

/-- The row produced by the C1 witness reconciliation. -/
def c1wResult : Quote :=
  { baseQuote with
    id := 7, unitPrice := 2, quantity := 4, total := 8,
    lastModified := "2024-06-01 12:00:00" }

theorem C1_total_invariant_witness :
    c1wResult.total = c1wResult.unitPrice * c1wResult.quantity :=
  C1_total_invariant c1wState "2024-06-01 12:00:00" true (by decide) (by decide)
    c1wResult (by decide)
    ⟨("Widget", [c1wEdit]), by decide, c1wEdit, by decide, by decide⟩

/-- State for the C3 counterexample: a single canonical row with a stale
stored total, and an Edit Buffer snapshot that is value-identical to it. -/
def c3State : AppState :=
  { baseState with
    data := [{ baseQuote with id := 1, unitPrice := 2, quantity := 3, total := 999 }],
    editedDataframes := [("Widget", [{ baseQuote with id := 1, unitPrice := 2, quantity := 3, total := 999 }])],
    nextId := 2 }

/-- Claim C3, as stated, is false: with an Edit Buffer snapshot
value-identical to canonical state, reconciliation still issues a write
and reports success, because the unconditional total recomputation finds
the stale stored total (999 versus 2 * 3) and marks the row dirty. -/
theorem C3_counterexample :
    (handle_master_save c3State "2024-06-01 12:00:00" true).report = SaveReport.saved ∧
    (handle_master_save c3State "2024-06-01 12:00:00" true).wrote ≠ none := by
  decide

/-- Claim C3 (amended): if every Edit Buffer snapshot row is
value-identical to the canonical row carrying its ID and every such row's
stored total is already consistent (total = unit price times quantity),
reconciliation performs zero writes, leaves the whole session state
untouched (in particular the Edit Buffer is not cleared) and reports
"nothing to save"; and whenever the merge detects at least one dirty row
and the store write succeeds, the full merged canonical state is
persisted, the Edit Buffer is cleared, and success is signalled. -/
theorem C3_reconcile_noop_or_persist (s : AppState) (now : String) (b : Bool) :
    ((∀ p ∈ s.editedDataframes, ∀ r ∈ p.2,
        findQ s.data r.id = some r ∧ r.total = r.unitPrice * r.quantity) →
      handle_master_save s now b = ⟨s, none, SaveReport.nothingToSave⟩) ∧
    ((mergeBuffer now s.data s.editedDataframes).2 = true →
      s.dataLoadFailed = false → b = true →
      (handle_master_save s now b).state.editedDataframes = [] ∧
      (handle_master_save s now b).wrote = some (mergeBuffer now s.data s.editedDataframes).1 ∧
      (handle_master_save s now b).state.data = (mergeBuffer now s.data s.editedDataframes).1 ∧
      (handle_master_save s now b).report = SaveReport.saved) := by
  constructor
  · intro h
    by_cases h1 : s.editedDataframes = []
    · simp [handle_master_save, h1]
    · have hm := mergeBuffer_noop now s.editedDataframes s.data h
      simp [handle_master_save, h1, hm]
  · intro h2 hl hb
    have h1 : s.editedDataframes ≠ [] := by
      intro h0
      rw [h0] at h2
      simp [mergeBuffer] at h2
    have h3 : write_data_to_sheets s.dataLoadFailed b = true := by
      rw [hl, hb]
      rfl
    refine ⟨?_, ?_, ?_, ?_⟩ <;> simp [handle_master_save, h1, h2, h3]

/-- State for the no-op half of the C3 witness: identical snapshot,
consistent stored total. -/
def c3NoopState : AppState :=
  { baseState with
    data := [{ baseQuote with id := 1, unitPrice := 2, quantity := 3, total := 6 }],
    editedDataframes := [("Widget", [{ baseQuote with id := 1, unitPrice := 2, quantity := 3, total := 6 }])],
    nextId := 2 }

theorem C3_reconcile_noop_or_persist_witness :
    handle_master_save c3NoopState "2024-06-01 12:00:00" true =
      ⟨c3NoopState, none, SaveReport.nothingToSave⟩ ∧
    (handle_master_save c1wState "2024-06-01 12:00:00" true).state.editedDataframes = [] ∧
    (handle_master_save c1wState "2024-06-01 12:00:00" true).report = SaveReport.saved :=
  ⟨(C3_reconcile_noop_or_persist c3NoopState "2024-06-01 12:00:00" true).1 (by decide),
   ((C3_reconcile_noop_or_persist c1wState "2024-06-01 12:00:00" true).2
      (by decide) rfl rfl).1,
   ((C3_reconcile_noop_or_persist c1wState "2024-06-01 12:00:00" true).2
      (by decide) rfl rfl).2.2.2⟩

/-- Claim C2: during the deletion execute transition every pending row's
(stripped) attachment reference is looked up and, when non-empty, its
deletion from the Attachment Store is requested; for EVERY outcome of the
Attachment Store oracle `gcs` — in particular when some or all deletions
fail — all pending IDs are removed from canonical state, the reduced
state is passed to the Record Store write, the Edit Buffer and the
pending set and the Confirming flag are cleared, and the report is
success or the partial-failure warning, carrying the record count (and
the cleaned-attachment count on full success). -/
theorem C2_delete_execute (s : AppState) (gcs : String → Bool) (ids : List Int)
    (hp : s.pendingDeleteIds = some ids) (hne : ids ≠ [])
    (hl : s.dataLoadFailed = false) :
    (handle_batch_delete_quotes s gcs true).gcsRequests =
      ((s.data.filter (fun q => ids.contains q.id)).map
        (fun q => q.attachment.trim)).filter (fun n => n ≠ "") ∧
    (handle_batch_delete_quotes s gcs true).state.data =
      s.data.filter (fun q => !(ids.contains q.id)) ∧
    (handle_batch_delete_quotes s gcs true).wrote =
      some (s.data.filter (fun q => !(ids.contains q.id))) ∧
    (handle_batch_delete_quotes s gcs true).state.editedDataframes = [] ∧
    (handle_batch_delete_quotes s gcs true).state.showDeleteConfirm = false ∧
    (handle_batch_delete_quotes s gcs true).state.pendingDeleteIds = none ∧
    (handle_batch_delete_quotes s gcs true).report =
      (if (((s.data.filter (fun q => ids.contains q.id)).map
            (fun q => q.attachment.trim)).filter (fun n => n ≠ "")).all gcs then
        DeleteReport.success ids.length (handle_batch_delete_quotes s gcs true).filesDeleted
      else DeleteReport.someFilesFailed ids.length) := by
  have hw : write_data_to_sheets s.dataLoadFailed true = true := by
    rw [hl]
    rfl
  refine ⟨?_, ?_, ?_, ?_, ?_, ?_, ?_⟩
  all_goals simp [handle_batch_delete_quotes, hp, hne, hw]
  rw [hp]
  simp

/-- Attachment oracle for the C2 witness: the store fails to delete
`old.pdf` and succeeds on everything else. -/
def c2Gcs : String → Bool := fun n => !(n == "old.pdf")

/-- State for the C2 witness: three rows, two of them pending deletion,
one carrying the attachment the store fails on. -/
def c2State : AppState :=
  { baseState with
    data := [{ baseQuote with id := 1, attachment := "old.pdf" },
             { baseQuote with id := 2, attachment := "" },
             { baseQuote with id := 3, attachment := "keep.pdf" }],
    editedDataframes := [("Widget", [{ baseQuote with id := 1, markedDelete := true }])],
    showDeleteConfirm := true, pendingDeleteIds := some [1, 2], deleteCount := 2,
    nextId := 4 }

theorem C2_delete_execute_witness :
    (handle_batch_delete_quotes c2State c2Gcs true).gcsRequests =
      ((c2State.data.filter (fun q => [(1 : Int), 2].contains q.id)).map
        (fun q => q.attachment.trim)).filter (fun n => n ≠ "") ∧
    (handle_batch_delete_quotes c2State c2Gcs true).state.data =
      c2State.data.filter (fun q => !([(1 : Int), 2].contains q.id)) ∧
    (handle_batch_delete_quotes c2State c2Gcs true).wrote =
      some (c2State.data.filter (fun q => !([(1 : Int), 2].contains q.id))) ∧
    (handle_batch_delete_quotes c2State c2Gcs true).state.editedDataframes = [] ∧
    (handle_batch_delete_quotes c2State c2Gcs true).state.showDeleteConfirm = false ∧
    (handle_batch_delete_quotes c2State c2Gcs true).state.pendingDeleteIds = none ∧
    (handle_batch_delete_quotes c2State c2Gcs true).report =
      (if (((c2State.data.filter (fun q => [(1 : Int), 2].contains q.id)).map
            (fun q => q.attachment.trim)).filter (fun n => n ≠ "")).all c2Gcs then
        DeleteReport.success ([(1 : Int), 2]).length
          (handle_batch_delete_quotes c2State c2Gcs true).filesDeleted
      else DeleteReport.someFilesFailed ([(1 : Int), 2]).length) :=
  C2_delete_execute c2State c2Gcs [1, 2] rfl (by decide) rfl

/-- Claim C10: if the Record Store write fails during the deletion
execute transition, the removal is not rolled back — the pending rows are
already gone from the in-memory canonical set and the attachment
deletions were already requested — while the Edit Buffer, the pending-ID
set and the Confirming flag are all left exactly as they were, and
nothing is reported cleared. -/
theorem C10_delete_write_failure_no_rollback (s : AppState) (gcs : String → Bool)
    (b : Bool) (ids : List Int)
    (hp : s.pendingDeleteIds = some ids) (hne : ids ≠ [])
    (hw : write_data_to_sheets s.dataLoadFailed b = false) :
    (handle_batch_delete_quotes s gcs b).state.data =
      s.data.filter (fun q => !(ids.contains q.id)) ∧
    (handle_batch_delete_quotes s gcs b).gcsRequests =
      ((s.data.filter (fun q => ids.contains q.id)).map
        (fun q => q.attachment.trim)).filter (fun n => n ≠ "") ∧
    (handle_batch_delete_quotes s gcs b).state.editedDataframes = s.editedDataframes ∧
    (handle_batch_delete_quotes s gcs b).state.pendingDeleteIds = s.pendingDeleteIds ∧
    (handle_batch_delete_quotes s gcs b).state.showDeleteConfirm = s.showDeleteConfirm ∧
    (handle_batch_delete_quotes s gcs b).report = DeleteReport.writeFailed := by
  refine ⟨?_, ?_, ?_, ?_, ?_, ?_⟩ <;>
    simp [handle_batch_delete_quotes, hp, hne, hw]

theorem C10_delete_write_failure_no_rollback_witness :
    (handle_batch_delete_quotes c2State c2Gcs false).state.data =
      c2State.data.filter (fun q => !([(1 : Int), 2].contains q.id)) ∧
    (handle_batch_delete_quotes c2State c2Gcs false).gcsRequests =
      ((c2State.data.filter (fun q => [(1 : Int), 2].contains q.id)).map
        (fun q => q.attachment.trim)).filter (fun n => n ≠ "") ∧
    (handle_batch_delete_quotes c2State c2Gcs false).state.editedDataframes =
      c2State.editedDataframes ∧
    (handle_batch_delete_quotes c2State c2Gcs false).state.pendingDeleteIds =
      c2State.pendingDeleteIds ∧
    (handle_batch_delete_quotes c2State c2Gcs false).state.showDeleteConfirm =
      c2State.showDeleteConfirm ∧
    (handle_batch_delete_quotes c2State c2Gcs false).report = DeleteReport.writeFailed :=
  C10_delete_write_failure_no_rollback c2State c2Gcs false [1, 2] rfl (by decide) rfl

/-- Claim C6: renaming a project to a different already-existing name is
rejected before any mutation (state returned unchanged with the
duplicate-name error); renaming to a fresh name rewrites the
project-name field on exactly the quotes owned by the target project and
re-keys the metadata entry, while every quote's ID and total are left
untouched.  The hypothesis that the target project exists reflects the
UI, which only offers existing projects (a missing target would raise
`KeyError` in `metadata.pop`, modelled as `none`). -/
theorem C6_rename_cascade (s : AppState) (target newName : String) (b : Bool)
    (meta : ProjectMeta) (hmeta : lookupMeta s.projectMetadata target = some meta)
    (hne : newName ≠ "") :
    (∀ m2, target ≠ newName → lookupMeta s.projectMetadata newName = some m2 →
      handle_project_modification s target newName b = some ⟨s, RenameOutcome.duplicateName⟩) ∧
    (lookupMeta s.projectMetadata newName = none →
      handle_project_modification s target newName b =
        some ⟨{ s with
                projectMetadata := removeMeta s.projectMetadata target ++ [(newName, meta)],
                data := s.data.map (fun q =>
                  if q.projectName = target then { q with projectName := newName } else q) },
              RenameOutcome.applied (write_data_to_sheets s.dataLoadFailed b)⟩) ∧
    ((s.data.map (fun q =>
        if q.projectName = target then { q with projectName := newName } else q)).map
      (fun q => q.id) = s.data.map (fun q => q.id)) ∧
    ((s.data.map (fun q =>
        if q.projectName = target then { q with projectName := newName } else q)).map
      (fun q => q.total) = s.data.map (fun q => q.total)) ∧
    (∀ q ∈ s.data, q.projectName = target →
      (if q.projectName = target then { q with projectName := newName } else q).projectName
        = newName) ∧
    (∀ q ∈ s.data, q.projectName ≠ target →
      (if q.projectName = target then { q with projectName := newName } else q) = q) := by
  refine ⟨?_, ?_, ?_, ?_, ?_, ?_⟩
  · intro m2 hdne hdup
    simp [handle_project_modification, hne, hdne, hdup]
  · intro hnone
    simp [handle_project_modification, hne, hnone, hmeta]
  · rw [List.map_map]
    apply List.map_congr_left
    intro q _
    simp only [Function.comp_apply]
    split <;> rfl
  · rw [List.map_map]
    apply List.map_congr_left
    intro q _
    simp only [Function.comp_apply]
    split <;> rfl
  · intro q _ hq
    rw [if_pos hq]
  · intro q _ hq
    rw [if_neg hq]

/-- Sample project metadata for the concrete states. -/
def sampleMeta : ProjectMeta := { due_date := 20100, buffer_days := 7, last_modified := "" }

/-- State for the C6 witness: two projects, quotes owned by both. -/
def c6State : AppState :=
  { baseState with
    data := [{ baseQuote with id := 1, projectName := "Office Upgrade" },
             { baseQuote with id := 2, projectName := "Other" }],
    projectMetadata := [("Office Upgrade", sampleMeta), ("Other", sampleMeta)],
    nextId := 3 }

theorem C6_rename_cascade_witness :
    handle_project_modification c6State "Office Upgrade" "Other" true =
      some ⟨c6State, RenameOutcome.duplicateName⟩ ∧
    handle_project_modification c6State "Office Upgrade" "Office Upgrade 2" true =
      some ⟨{ c6State with
              projectMetadata := removeMeta c6State.projectMetadata "Office Upgrade" ++
                [("Office Upgrade 2", sampleMeta)],
              data := c6State.data.map (fun q =>
                if q.projectName = "Office Upgrade" then
                  { q with projectName := "Office Upgrade 2" } else q) },
            RenameOutcome.applied (write_data_to_sheets c6State.dataLoadFailed true)⟩ :=
  ⟨(C6_rename_cascade c6State "Office Upgrade" "Other" true sampleMeta rfl
      (by decide)).1 sampleMeta (by decide) rfl,
   (C6_rename_cascade c6State "Office Upgrade" "Office Upgrade 2" true sampleMeta rfl
      (by decide)).2.1 rfl⟩

theorem foldl_max_init_le (l : List Quote) :
    ∀ a : Int, a ≤ l.foldl (fun m r => max m r.id) a := by
  induction l with
  | nil => intro a; exact le_refl a
  | cons r t ih =>
    intro a
    exact le_trans (le_max_left a r.id) (ih (max a r.id))

theorem foldl_max_mem_le (l : List Quote) :
    ∀ a : Int, ∀ q ∈ l, q.id ≤ l.foldl (fun m r => max m r.id) a := by
  induction l with
  | nil => intro a q hq; cases hq
  | cons r t ih =>
    intro a q hq
    rcases List.mem_cons.mp hq with rfl | hmem
    · exact le_trans (le_max_right a q.id) (foldl_max_init_le t (max a q.id))
    · exact ih (max a r.id) q hmem

/-- Every row's ID is bounded by the table maximum. -/
theorem le_maxQuoteId (l : List Quote) (q : Quote) (hq : q ∈ l) :
    q.id ≤ maxQuoteId l := by
  cases l with
  | nil => cases hq
  | cons r t =>
    rcases List.mem_cons.mp hq with rfl | hmem
    · exact foldl_max_init_le t q.id
    · exact foldl_max_mem_le t r.id q hmem

/-- Every loaded row's ID is strictly below the initial session counter. -/
theorem lt_initialize_next_id (data : List Quote) (q : Quote) (hq : q ∈ data) :
    q.id < initialize_next_id data := by
  have hne : data ≠ [] := by
    intro h
    rw [h] at hq
    cases hq
  rw [initialize_next_id, if_neg hne]
  exact lt_of_le_of_lt (le_maxQuoteId data q hq) (lt_add_one _)

/-- State for the C9 counterexample before the deletion: three quotes
with IDs 1, 2, 3 and the session counter initialised from them. -/
def c9State : AppState :=
  { baseState with
    data := [{ baseQuote with id := 1 }, { baseQuote with id := 2 },
             { baseQuote with id := 3 }],
    projectMetadata := [("ProjA", sampleMeta)],
    pendingDeleteIds := some [3], showDeleteConfirm := true,
    nextId := initialize_next_id
      [{ baseQuote with id := 1 }, { baseQuote with id := 2 },
       { baseQuote with id := 3 }] }

/-- The state after the quote with the maximal ID 3 is deleted in the
same session. -/
def c9AfterDelete : AppState :=
  (handle_batch_delete_quotes c9State (fun _ => true) true).state

/-- Claim C9, as stated, is false after a deletion in the same session:
the session counter was initialised to 4 (= 3 + 1), the quote with ID 3
is then deleted, so the canonical maximum is 2, yet the next add assigns
ID 4, not 2 + 1 = 3.  `next_id` is a session counter that is never
recomputed from the canonical set. -/
theorem C9_counterexample :
    c9State.nextId = 4 ∧
    maxQuoteId c9AfterDelete.data + 1 = 3 ∧
    ((handle_add_new_quote c9AfterDelete "ProjA" "Widget" "S1" 5 1 "Quoting"
        20000 19990 "t").2.map (fun q => q.id)) = some 4 ∧
    (4 : Int) ≠ 3 := by
  decide

/-- Claim C9 (amended): quote IDs are immutable (reconciliation preserves
the ID column) and allocation is a session counter: it is initialised to
the loaded maximum plus 1 (or 1 on an empty table) and strictly bounds
every loaded ID; each successful add assigns the counter's current value,
increments it, and appends the row — preserving both the strict bound and
ID uniqueness.  After a deletion the counter is not recomputed, so the
assigned ID equals current-max + 1 only when no higher-ID quote has been
removed. -/
theorem C9_id_allocation (data : List Quote) (s q2 : AppState) (row : Quote)
    (projectName itemName supplier status : String)
    (price qty delivery la : Int) (now : String)
    (hadd : handle_add_new_quote s projectName itemName supplier price qty status
      delivery la now = (q2, some row)) :
    (initialize_next_id [] = 1) ∧
    (data ≠ [] → initialize_next_id data = maxQuoteId data + 1) ∧
    (∀ q ∈ data, q.id < initialize_next_id data) ∧
    (row.id = s.nextId ∧ q2.nextId = s.nextId + 1 ∧ q2.data = s.data ++ [row]) ∧
    ((∀ q ∈ s.data, q.id < s.nextId) →
      (∀ q ∈ q2.data, q.id < q2.nextId) ∧
      ((s.data.map (fun q => q.id)).Nodup → (q2.data.map (fun q => q.id)).Nodup)) ∧
    (∀ now2 : String,
      ((mergeBuffer now2 s.data s.editedDataframes).1).map (fun q => q.id) =
        s.data.map (fun q => q.id)) := by
  have hmain : row.id = s.nextId ∧ q2.nextId = s.nextId + 1 ∧ q2.data = s.data ++ [row] := by
    by_cases h1 : projectName = "" ∨ itemName = ""
    · rw [handle_add_new_quote, if_pos h1] at hadd
      exact absurd (congrArg Prod.snd hadd) (by simp)
    · by_cases h2 : (lookupMeta s.projectMetadata projectName).isSome = false
      · rw [handle_add_new_quote, if_neg h1, if_pos h2] at hadd
        exact absurd (congrArg Prod.snd hadd) (by simp)
      · rw [handle_add_new_quote, if_neg h1, if_neg h2] at hadd
        have hrow : newQuoteRow s.nextId projectName itemName supplier price qty
            status delivery la now = row := by
          simpa using congrArg Prod.snd hadd
        have hq2 : q2 = { s with
            nextId := s.nextId + 1,
            data := s.data ++ [newQuoteRow s.nextId projectName itemName supplier
              price qty status delivery la now] } :=
          (congrArg Prod.fst hadd).symm
        refine ⟨?_, ?_, ?_⟩
        · rw [← hrow]
          rfl
        · rw [hq2]
        · rw [hq2, hrow]
  refine ⟨rfl, ?_, ?_, hmain, ?_, ?_⟩
  · intro h
    rw [initialize_next_id, if_neg h]
  · exact fun q hq => lt_initialize_next_id data q hq
  · intro hbound
    constructor
    · intro q hq
      rw [hmain.2.2] at hq
      rw [hmain.2.1]
      rcases List.mem_append.mp hq with hmem | hmem
      · exact lt_trans (hbound q hmem) (lt_add_one _)
      · rcases List.mem_singleton.mp hmem with rfl
        rw [hmain.1]
        exact lt_add_one _
    · intro hnd
      rw [hmain.2.2, List.map_append]
      apply List.Nodup.append hnd
      · exact List.nodup_singleton _
      · intro x hx
        simp only [List.map_cons, List.map_nil, List.mem_singleton]
        rcases List.mem_map.mp hx with ⟨q, hqmem, rfl⟩
        rw [hmain.1]
        exact ne_of_lt (hbound q hqmem)
  · exact fun now2 => mergeBuffer_idMap now2 s.editedDataframes s.data

/-- State for the C9 witness: one quote with ID 1; the add succeeds and
assigns ID 2. -/
def c9wState : AppState :=
  { baseState with
    data := [{ baseQuote with id := 1 }],
    projectMetadata := [("ProjA", sampleMeta)],
    nextId := 2 }

theorem C9_id_allocation_witness :
    initialize_next_id [] = 1 ∧
    (newQuoteRow 2 "ProjA" "Widget" "S1" 5 2 "Quoting" 20000 19990 "t").id =
      c9wState.nextId :=
  ⟨(C9_id_allocation [{ baseQuote with id := 1 }] c9wState
      (handle_add_new_quote c9wState "ProjA" "Widget" "S1" 5 2 "Quoting" 20000 19990 "t").1
      (newQuoteRow 2 "ProjA" "Widget" "S1" 5 2 "Quoting" 20000 19990 "t")
      "ProjA" "Widget" "S1" "Quoting" 5 2 20000 19990 "t" (by decide)).1,
   (C9_id_allocation [{ baseQuote with id := 1 }] c9wState
      (handle_add_new_quote c9wState "ProjA" "Widget" "S1" 5 2 "Quoting" 20000 19990 "t").1
      (newQuoteRow 2 "ProjA" "Widget" "S1" 5 2 "Quoting" 20000 19990 "t")
      "ProjA" "Widget" "S1" "Quoting" 5 2 20000 19990 "t" (by decide)).2.2.2.1.1⟩

/-- Claim C7, as stated, is false in its "until a successful reload
clears the latch" part: after a failed load followed by a successful
reload (which does install the loaded data), `write_data_to_sheets`
still refuses to write — no code path ever resets
`data_load_failed`. -/
theorem C7_counterexample :
    (applyLoad (applyLoad baseState LoadEvent.failure)
      (LoadEvent.ok [baseQuote] [("ProjA", sampleMeta)])).data = [baseQuote] ∧
    write_attempt (applyLoad (applyLoad baseState LoadEvent.failure)
      (LoadEvent.ok [baseQuote] [("ProjA", sampleMeta)])).dataLoadFailed true =
      WriteOutcome.refused := by
  decide

/-- Claim C7 (amended): a load failure leaves the system running on the
empty in-memory state with the `data_load_failed` latch set; once set,
the latch survives every further load (successful or not) and every
handler, and while it is set every `write_data_to_sheets` call is refused
before touching the store.  The latch is never cleared — no successful
reload re-enables writes for the rest of the session. -/
theorem C7_load_failure_latch (s0 : AppState) (es : List LoadEvent) (b : Bool)
    (now : String) (gcs : String → Bool) :
    (applyLoad s0 LoadEvent.failure).data = [] ∧
    (applyLoad s0 LoadEvent.failure).projectMetadata = [] ∧
    (applyLoad s0 LoadEvent.failure).dataLoadFailed = true ∧
    (∀ s : AppState, s.dataLoadFailed = true →
      (applyLoads s es).dataLoadFailed = true) ∧
    (∀ s : AppState, s.dataLoadFailed = true →
      write_attempt s.dataLoadFailed b = WriteOutcome.refused) ∧
    (∀ s : AppState, (handle_master_save s now b).state.dataLoadFailed = s.dataLoadFailed) ∧
    (∀ s : AppState,
      (handle_batch_delete_quotes s gcs b).state.dataLoadFailed = s.dataLoadFailed) ∧
    (∀ s : AppState, (trigger_delete_confirmation s).dataLoadFailed = s.dataLoadFailed) := by
  refine ⟨rfl, rfl, rfl, ?_, ?_, ?_, ?_, ?_⟩
  · induction es with
    | nil => intro s h; exact h
    | cons e t ih =>
      intro s h
      apply ih
      cases e with
      | ok qs meta => exact h
      | failure => rfl
  · intro s h
    rw [write_attempt, h]
    rfl
  · intro s
    simp only [handle_master_save]
    split
    · rfl
    · split
      · split <;> rfl
      · rfl
  · intro s
    simp only [handle_batch_delete_quotes]
    split
    · rfl
    · split <;> rfl
  · intro s
    simp only [trigger_delete_confirmation]
    split <;> rfl

theorem C7_load_failure_latch_witness :
    (applyLoads (applyLoad baseState LoadEvent.failure)
      [LoadEvent.ok [baseQuote] [("ProjA", sampleMeta)]]).dataLoadFailed = true ∧
    write_attempt ({ baseState with dataLoadFailed := true } : AppState).dataLoadFailed
      true = WriteOutcome.refused :=
  ⟨(C7_load_failure_latch baseState [LoadEvent.ok [baseQuote] [("ProjA", sampleMeta)]]
      true "t" (fun _ => true)).2.2.2.1 (applyLoad baseState LoadEvent.failure) rfl,
   (C7_load_failure_latch baseState [] true "t" (fun _ => true)).2.2.2.2.1
      { baseState with dataLoadFailed := true } rfl⟩

/-- Claim C8: while the Deletion Coordinator is in the Confirming state
(`show_delete_confirm` set), both the master-save and the delete-trigger
buttons are disabled, and any sequence of batch-operation interactions
containing no confirm and no cancel leaves the state completely unchanged
— so no reconciliation can run between the trigger (which enters
Confirming whenever some row is marked) and the following confirm or
cancel. -/
theorem C8_confirming_blocks_save (s : AppState) (hs : s.showDeleteConfirm = true)
    (as : List UiAction)
    (ha : ∀ a ∈ as, a.isConfirm = false ∧ a.isCancel = false)
    (now : String) (b : Bool) :
    enabled s (UiAction.save now b) = false ∧
    enabled s UiAction.triggerDelete = false ∧
    run s as = s ∧
    (∀ s2 : AppState, get_current_delete_ids s2 ≠ [] →
      (trigger_delete_confirmation s2).showDeleteConfirm = true) := by
  refine ⟨by simp [enabled, hs], by simp [enabled, hs], ?_, ?_⟩
  · revert ha
    induction as with
    | nil => intro _; rfl
    | cons a t ih =>
      intro ha
      have h1 := ha a (List.mem_cons_self a t)
      have hstep : step s a = s := by
        cases a with
        | save n bb => simp [step, enabled, hs]
        | triggerDelete => simp [step, enabled, hs]
        | confirmDelete g bb => simp [UiAction.isConfirm] at h1
        | cancelDelete => simp [UiAction.isCancel] at h1
      rw [run, hstep]
      exact ih (fun x hx => ha x (List.mem_cons_of_mem a hx))
  · intro s2 h2
    rw [trigger_delete_confirmation]
    simp only [if_neg h2]

/-- State for the C8 witness: the Confirming state with one pending ID. -/
def c8State : AppState :=
  { baseState with
    data := [{ baseQuote with id := 1, markedDelete := true }],
    showDeleteConfirm := true, pendingDeleteIds := some [1], deleteCount := 1,
    nextId := 2 }

theorem C8_confirming_blocks_save_witness :
    enabled c8State (UiAction.save "t" true) = false ∧
    enabled c8State UiAction.triggerDelete = false ∧
    run c8State [UiAction.save "t" true, UiAction.triggerDelete] = c8State :=
  ⟨(C8_confirming_blocks_save c8State rfl
      [UiAction.save "t" true, UiAction.triggerDelete] (by decide) "t" true).1,
   (C8_confirming_blocks_save c8State rfl
      [UiAction.save "t" true, UiAction.triggerDelete] (by decide) "t" true).2.1,
   (C8_confirming_blocks_save c8State rfl
      [UiAction.save "t" true, UiAction.triggerDelete] (by decide) "t" true).2.2.1⟩

/-- Claim C4: the latest-allowable-arrival derivation sets, for every
quote with a resolvable project, the field to the project's due date
minus its buffer days; a quote whose project is missing is returned
unchanged (nothing is guessed); the derivation maps rows independently
and is idempotent (re-running it on its own output is the identity on
that output) — and, being a pure function, deterministic. -/
theorem C4_latest_arrival (qs : List Quote) (meta : List (String × ProjectMeta)) :
    (∀ q ∈ qs, ∀ m, lookupMeta meta q.projectName = some m →
      (deriveOne meta q).latestArrival = some (m.due_date - m.buffer_days)) ∧
    (∀ q ∈ qs, lookupMeta meta q.projectName = none → deriveOne meta q = q) ∧
    calculate_latest_arrival_dates qs meta = qs.map (deriveOne meta) ∧
    calculate_latest_arrival_dates (calculate_latest_arrival_dates qs meta) meta =
      calculate_latest_arrival_dates qs meta := by
  refine ⟨?_, ?_, rfl, ?_⟩
  · intro q _ m hm
    simp [deriveOne, hm]
  · intro q _ hm
    simp [deriveOne, hm]
  · unfold calculate_latest_arrival_dates
    rw [List.map_map]
    apply List.map_congr_left
    intro q _
    simp only [Function.comp_apply]
    cases hm : lookupMeta meta q.projectName with
    | none => simp [deriveOne, hm]
    | some m => simp [deriveOne, hm]

/-- A quote owned by the known project, for the C4 witness. -/
def c4Known : Quote := { baseQuote with id := 1, projectName := "ProjA" }

/-- A quote owned by a project absent from the metadata, for the C4
witness. -/
def c4Orphan : Quote := { baseQuote with id := 2, projectName := "Ghost" }

theorem C4_latest_arrival_witness :
    (deriveOne [("ProjA", sampleMeta)] c4Known).latestArrival =
      some (sampleMeta.due_date - sampleMeta.buffer_days) ∧
    deriveOne [("ProjA", sampleMeta)] c4Orphan = c4Orphan ∧
    calculate_latest_arrival_dates
        (calculate_latest_arrival_dates [c4Known, c4Orphan] [("ProjA", sampleMeta)])
        [("ProjA", sampleMeta)] =
      calculate_latest_arrival_dates [c4Known, c4Orphan] [("ProjA", sampleMeta)] :=
  ⟨(C4_latest_arrival [c4Known, c4Orphan] [("ProjA", sampleMeta)]).1 c4Known
      (by decide) sampleMeta (by decide),
   (C4_latest_arrival [c4Known, c4Orphan] [("ProjA", sampleMeta)]).2.1 c4Orphan
      (by decide) (by decide),
   (C4_latest_arrival [c4Known, c4Orphan] [("ProjA", sampleMeta)]).2.2.2⟩

theorem foldl_min_le_init (l : List Int) : ∀ a : Int, l.foldl min a ≤ a := by
  induction l with
  | nil => intro a; exact le_refl a
  | cons x t ih =>
    intro a
    exact le_trans (ih (min a x)) (min_le_left a x)

theorem foldl_min_le_mem (l : List Int) : ∀ a : Int, ∀ x ∈ l, l.foldl min a ≤ x := by
  induction l with
  | nil => intro a x hx; cases hx
  | cons y t ih =>
    intro a x hx
    rcases List.mem_cons.mp hx with rfl | hmem
    · exact le_trans (foldl_min_le_init t (min a x)) (min_le_right a x)
    · exact ih (min a y) x hmem

theorem foldl_min_mem (l : List Int) : ∀ a : Int, l.foldl min a ∈ a :: l := by
  induction l with
  | nil => intro a; exact List.mem_singleton.mpr rfl
  | cons x t ih =>
    intro a
    have h := ih (min a x)
    rcases List.mem_cons.mp h with heq | hmem
    · rw [List.foldl_cons, heq]
      rcases min_choice a x with hc | hc
      · rw [hc]
        exact List.mem_cons_self a (x :: t)
      · rw [hc]
        exact List.mem_cons_of_mem a (List.mem_cons_self x t)
    · rw [List.foldl_cons]
      exact List.mem_cons_of_mem a (List.mem_cons_of_mem x hmem)

/-- Claim C5: per (project, item) group — with any selected row the
contribution is the sum of the selected rows' totals; with no selected
row it is the minimum total across the group (which exists and is
attained for the non-empty groups the grouping produces); the grouping
never produces an empty group, and the spec's `budget_for_group`
(modelled from the spec, its source body being absent from `src/`)
agrees with the in-source formula on non-empty groups and sends the
empty group to 0 (where the raw pandas formula would give `NaN`,
here `none`). -/
theorem C5_group_budget (rows : List Quote) (g : List Quote) :
    (∀ p ∈ groupByItem rows, p.2 ≠ []) ∧
    ((∃ q ∈ g, q.selected = true) →
      sub_total g = some (((g.filter (fun q => q.selected)).map (fun q => q.total)).sum) ∧
      budget_for_group g =
        ((g.filter (fun q => q.selected)).map (fun q => q.total)).sum) ∧
    (g ≠ [] → (∀ q ∈ g, q.selected = false) →
      ∃ v, sub_total g = some v ∧ budget_for_group g = v ∧
        v ∈ g.map (fun q => q.total) ∧ ∀ t ∈ g.map (fun q => q.total), v ≤ t) ∧
    budget_for_group [] = 0 ∧ sub_total [] = none := by
  refine ⟨?_, ?_, ?_, rfl, rfl⟩
  · intro p hp
    rcases List.mem_map.mp hp with ⟨k, hk, rfl⟩
    have hk2 : k ∈ rows.map (fun q => q.itemName) := List.mem_dedup.mp hk
    rcases List.mem_map.mp hk2 with ⟨q, hq, rfl⟩
    have hqf : q ∈ rows.filter (fun p => p.itemName == q.itemName) :=
      List.mem_filter.mpr ⟨hq, by simp⟩
    exact List.ne_nil_of_mem hqf
  · intro hsel
    have hany : g.any (fun q => q.selected) = true := by
      rw [List.any_eq_true]
      rcases hsel with ⟨q, hq, hs⟩
      exact ⟨q, hq, hs⟩
    constructor
    · rw [sub_total, if_pos hany]
    · rw [budget_for_group, if_pos hany]
  · intro hne hnone
    have hany : ¬ g.any (fun q => q.selected) = true := by
      rw [List.any_eq_true]
      rintro ⟨q, hq, hs⟩
      rw [hnone q hq] at hs
      cases hs
    cases g with
    | nil => exact absurd rfl hne
    | cons q qs =>
      refine ⟨(qs.map (fun r => r.total)).foldl min q.total, ?_, ?_, ?_, ?_⟩
      · rw [sub_total, if_neg hany]
        rfl
      · rw [budget_for_group, if_neg hany]
        rfl
      · exact foldl_min_mem (qs.map (fun r => r.total)) q.total
      · intro t ht
        rcases List.mem_cons.mp ht with rfl | hmem
        · exact foldl_min_le_init _ _
        · exact foldl_min_le_mem _ _ t hmem

/-- The spec's no-selection example group: totals 100 and 80, nothing
selected. -/
def c5GroupNoSel : List Quote :=
  [{ baseQuote with id := 1, total := 100 }, { baseQuote with id := 2, total := 80 }]

/-- The spec's selection example group: the 100-total row selected. -/
def c5GroupSel : List Quote :=
  [{ baseQuote with id := 1, total := 100, selected := true },
   { baseQuote with id := 2, total := 80 }]

theorem C5_group_budget_witness :
    (sub_total c5GroupSel =
      some (((c5GroupSel.filter (fun q => q.selected)).map (fun q => q.total)).sum) ∧
     budget_for_group c5GroupSel =
      ((c5GroupSel.filter (fun q => q.selected)).map (fun q => q.total)).sum) ∧
    (∃ v, sub_total c5GroupNoSel = some v ∧ budget_for_group c5GroupNoSel = v ∧
      v ∈ c5GroupNoSel.map (fun q => q.total) ∧
      ∀ t ∈ c5GroupNoSel.map (fun q => q.total), v ≤ t) :=
  ⟨(C5_group_budget [] c5GroupSel).2.1
      ⟨{ baseQuote with id := 1, total := 100, selected := true }, by decide, rfl⟩,
   (C5_group_budget [] c5GroupNoSel).2.2.1 (by decide) (by decide)⟩

end Procurement
